import Mathlib

/-!
Verification of the `tailcall-chunk` persistent sequence library.

The repository contains two variants of the `Chunk` data structure:

* `src/chunk.rs` — the current implementation, with four variants
  (`Empty`, `Append`, `Concat`, `TransformFlatten`).  Its materialization
  `as_vec_mut` visits a `Concat` node's left operand before the right one.
  It is embedded below as `Chunk`.
* `src/lib.rs` — a historical three-variant version (no deferred
  transform) that derives `Hash/Eq/PartialEq`.  Its `as_vec_mut` visits a
  `Concat` node's RIGHT operand before the left one.  It is embedded
  below as `LChunk`.

`Rc<T>` shared references are immutable after creation, so they are
modelled by plain value nesting; Rust's derived `Clone` produces an equal
value and is modelled by the identity function.  Vectors are modelled by
`List`, with `Vec::push` appending at the right end.
-/

/-- Node representation from `src/chunk.rs`: the enum `Chunk<A>` with
variants `Empty`, `Append(A, Rc<Chunk<A>>)`,
`Concat(Rc<Chunk<A>>, Rc<Chunk<A>>)` and
`TransformFlatten(Rc<Chunk<A>>, Rc<dyn Fn(A) -> Chunk<A>>)`. -/
inductive Chunk (A : Type) : Type where
  | Empty : Chunk A
  | Append : A → Chunk A → Chunk A
  | Concat : Chunk A → Chunk A → Chunk A
  | TransformFlatten : Chunk A → (A → Chunk A) → Chunk A

/-- Rust `impl Default for Chunk<A>` in `chunk.rs`: `Chunk::Empty`. -/
def Chunk.default {A : Type} : Chunk A := Chunk.Empty

/-- Rust `Chunk::append` in `chunk.rs`: `Chunk::Append(a, Rc::new(self))`. -/
def Chunk.append {A : Type} (self : Chunk A) (a : A) : Chunk A :=
  Chunk.Append a self

/-- Rust `Chunk::new(a)` in `chunk.rs`: `Chunk::default().append(a)`. -/
def Chunk.new {A : Type} (a : A) : Chunk A :=
  Chunk.default.append a

/-- Rust `Chunk::is_null` in `chunk.rs`: `matches!(self, Chunk::Empty)`. -/
def Chunk.is_null {A : Type} : Chunk A → Bool
  | Chunk.Empty => true
  | _ => false

/-- Rust `Chunk::concat` in `chunk.rs`: return the other operand when one
side is empty, otherwise build a `Concat` node. -/
def Chunk.concat {A : Type} (self other : Chunk A) : Chunk A :=
  if self.is_null then other
  else if other.is_null then self
  else Chunk.Concat self other

/-- Rust `Chunk::transform_flatten` in `chunk.rs`: store the chunk and the
function in a `TransformFlatten` node without invoking the function. -/
def Chunk.transform_flatten {A : Type} (self : Chunk A) (f : A → Chunk A) : Chunk A :=
  Chunk.TransformFlatten self f

/-- Rust `Chunk::transform` in `chunk.rs`:
`self.transform_flatten(move |a| Chunk::new(f(a)))`. -/
def Chunk.transform {A : Type} (self : Chunk A) (f : A → A) : Chunk A :=
  self.transform_flatten (fun a => Chunk.new (f a))

/-- Rust `Chunk::as_vec_mut` in `chunk.rs`.  The mutable buffer is passed
as a list and the updated buffer is returned: `Empty` leaves the buffer
unchanged; `Append(a, rest)` recurses into `rest` and then pushes `a`;
`Concat(a, b)` recurses into `a` and then into `b`;
`TransformFlatten(a, f)` materializes `a` into a fresh temporary buffer
and then, for each element of that buffer in order, materializes `f elem`
into the main buffer. -/
def Chunk.as_vec_mut {A : Type} : Chunk A → List A → List A
  | .Empty, buf => buf
  | .Append a rest, buf => rest.as_vec_mut buf ++ [a]
  | .Concat a b, buf => b.as_vec_mut (a.as_vec_mut buf)
  | .TransformFlatten a f, buf =>
      (a.as_vec_mut []).foldl (fun acc e => (f e).as_vec_mut acc) buf

/-- Rust `Chunk::as_vec` in `chunk.rs`: run `as_vec_mut` on a fresh vector. -/
def Chunk.as_vec {A : Type} (self : Chunk A) : List A :=
  self.as_vec_mut []

/-- Rust `#[derive(Clone)]` on `Chunk` in `chunk.rs`: cloning the element
and the `Rc` children yields a value equal to the original, so at the
value level `clone` is the identity. -/
def Chunk.clone {A : Type} (self : Chunk A) : Chunk A := self

/-- Node representation from the historical `src/lib.rs`: the enum
`Chunk<A>` with variants `Empty`, `Append` and `Concat` only, deriving
structural `Hash/Eq/PartialEq/Clone`. -/
inductive LChunk (A : Type) : Type where
  | Empty : LChunk A
  | Append : A → LChunk A → LChunk A
  | Concat : LChunk A → LChunk A → LChunk A
deriving DecidableEq, BEq

/-- Rust `Chunk::new()` in `lib.rs`: `Self::Empty`. -/
def LChunk.new {A : Type} : LChunk A := LChunk.Empty

/-- Rust `impl Default for Chunk<A>` in `lib.rs`: `Self::new()`. -/
def LChunk.default {A : Type} : LChunk A := LChunk.new

/-- Rust `Chunk::is_null` in `lib.rs`: `matches!(self, Chunk::Empty)`. -/
def LChunk.is_null {A : Type} : LChunk A → Bool
  | LChunk.Empty => true
  | _ => false

/-- Rust `Chunk::append` in `lib.rs`: `Chunk::Append(a, Rc::new(self))`. -/
def LChunk.append {A : Type} (self : LChunk A) (a : A) : LChunk A :=
  LChunk.Append a self

/-- Rust `Chunk::concat` in `lib.rs`: return the other operand when one
side is empty, otherwise build a `Concat` node. -/
def LChunk.concat {A : Type} (self other : LChunk A) : LChunk A :=
  if self.is_null then other
  else if other.is_null then self
  else LChunk.Concat self other

/-- Rust `Chunk::as_vec_mut` in `lib.rs`.  Note the `Concat(a, b)` case:
the source recurses into `b` FIRST and then into `a` (right operand
before left). -/
def LChunk.as_vec_mut {A : Type} : LChunk A → List A → List A
  | .Empty, buf => buf
  | .Append a rest, buf => rest.as_vec_mut buf ++ [a]
  | .Concat a b, buf => a.as_vec_mut (b.as_vec_mut buf)

/-- Rust `Chunk::as_vec` in `lib.rs`: run `as_vec_mut` on a fresh vector. -/
def LChunk.as_vec {A : Type} (self : LChunk A) : List A :=
  self.as_vec_mut []

/-- Chunks reachable through the public construction operators of
`chunk.rs`: `default`/`new`, `append`, `concat`, `transform` and
`transform_flatten`. -/
inductive Chunk.Built {A : Type} : Chunk A → Prop where
  | default_ : Chunk.Built Chunk.default
  | new (a : A) : Chunk.Built (Chunk.new a)
  | append {c : Chunk A} (a : A) : Chunk.Built c → Chunk.Built (c.append a)
  | concat {c d : Chunk A} : Chunk.Built c → Chunk.Built d → Chunk.Built (c.concat d)
  | transform {c : Chunk A} (f : A → A) : Chunk.Built c → Chunk.Built (c.transform f)
  | transform_flatten {c : Chunk A} (f : A → Chunk A) :
      Chunk.Built c → Chunk.Built (c.transform_flatten f)

/-- Chunks built through `default`/`new`, `append` and `concat` only
(no deferred transforms). -/
inductive Chunk.BuiltNT {A : Type} : Chunk A → Prop where
  | default_ : Chunk.BuiltNT Chunk.default
  | new (a : A) : Chunk.BuiltNT (Chunk.new a)
  | append {c : Chunk A} (a : A) : Chunk.BuiltNT c → Chunk.BuiltNT (c.append a)
  | concat {c d : Chunk A} : Chunk.BuiltNT c → Chunk.BuiltNT d → Chunk.BuiltNT (c.concat d)

/-- Structural invariant: no `Concat` node in the tree has an `Empty`
operand.  A `TransformFlatten` node's stored function is opaque; the
invariant constrains the nodes present in the tree itself. -/
def Chunk.noEmptyConcat {A : Type} : Chunk A → Bool
  | .Empty => true
  | .Append _ rest => rest.noEmptyConcat
  | .Concat a b =>
      !a.is_null && !b.is_null && a.noEmptyConcat && b.noEmptyConcat
  | .TransformFlatten a _ => a.noEmptyConcat

/-! Helper lemmas about buffer-threading folds. -/

/-- Folding a step that appends to the accumulator threads the initial
buffer through unchanged on the left. -/
theorem foldlAppendOut {α β : Type} (g0 : α → List β) :
    ∀ (t : List α) (b : List β),
      t.foldl (fun acc e => acc ++ g0 e) b = b ++ t.foldl (fun acc e => acc ++ g0 e) [] := by
  intro t
  induction t with
  | nil => intro b; simp
  | cons e es ih =>
      intro b
      simp only [List.foldl_cons]
      rw [ih (b ++ g0 e), ih ([] ++ g0 e)]
      simp [List.append_assoc]

/-- Folding appends starting from the empty buffer is a flat-map. -/
theorem foldlAppendFlatMap {α β : Type} (g0 : α → List β) (t : List α) :
    t.foldl (fun acc e => acc ++ g0 e) [] = t.flatMap g0 := by
  induction t with
  | nil => rfl
  | cons e es ih =>
      simp only [List.foldl_cons]
      rw [foldlAppendOut g0 es ([] ++ g0 e)]
      simp [ih]

/-! Basic lemmas about `Chunk` materialization. -/

/-- Materializing into a buffer appends the chunk's own materialization
after the buffer's existing contents. -/
theorem Chunk.as_vec_mut_eq {A : Type} (c : Chunk A) :
    ∀ buf : List A, c.as_vec_mut buf = buf ++ c.as_vec := by
  induction c with
  | Empty => intro buf; simp [Chunk.as_vec, Chunk.as_vec_mut]
  | Append a rest ih =>
      intro buf
      simp only [Chunk.as_vec, Chunk.as_vec_mut]
      rw [ih buf, ih []]
      simp [List.append_assoc]
  | Concat l r ihl ihr =>
      intro buf
      simp only [Chunk.as_vec, Chunk.as_vec_mut]
      rw [ihr (l.as_vec_mut buf), ihl buf, ihr (l.as_vec_mut []), ihl []]
      simp [List.append_assoc]
  | TransformFlatten base f ihb ihf =>
      intro buf
      simp only [Chunk.as_vec, Chunk.as_vec_mut]
      have hfun : (fun (acc : List A) (e : A) => (f e).as_vec_mut acc)
          = fun (acc : List A) (e : A) => acc ++ (f e).as_vec_mut [] := by
        funext acc e
        rw [ihf e acc]
        simp [Chunk.as_vec]
      rw [hfun, foldlAppendOut]

@[simp]
theorem Chunk.as_vec_Empty {A : Type} : (Chunk.Empty : Chunk A).as_vec = [] := rfl

@[simp]
theorem Chunk.as_vec_Append {A : Type} (a : A) (rest : Chunk A) :
    (Chunk.Append a rest).as_vec = rest.as_vec ++ [a] := rfl

@[simp]
theorem Chunk.as_vec_Concat {A : Type} (l r : Chunk A) :
    (Chunk.Concat l r).as_vec = l.as_vec ++ r.as_vec := by
  show r.as_vec_mut (l.as_vec_mut []) = l.as_vec ++ r.as_vec
  rw [Chunk.as_vec_mut_eq, Chunk.as_vec_mut_eq]
  rfl

@[simp]
theorem Chunk.as_vec_TransformFlatten {A : Type} (base : Chunk A) (f : A → Chunk A) :
    (Chunk.TransformFlatten base f).as_vec = base.as_vec.flatMap (fun e => (f e).as_vec) := by
  show (base.as_vec_mut []).foldl (fun acc e => (f e).as_vec_mut acc) [] = _
  have hfun : (fun (acc : List A) (e : A) => (f e).as_vec_mut acc)
      = fun (acc : List A) (e : A) => acc ++ (f e).as_vec := by
    funext acc e
    rw [Chunk.as_vec_mut_eq]
  rw [hfun, foldlAppendFlatMap]
  rfl

/-- Predicate characterization: `is_null` recognises exactly the `Empty`
variant. -/
@[simp]
theorem Chunk.is_null_iff {A : Type} (c : Chunk A) :
    c.is_null = true ↔ c = Chunk.Empty := by
  cases c <;> simp [Chunk.is_null]

@[simp]
theorem Chunk.as_vec_append_op {A : Type} (x : Chunk A) (a : A) :
    (x.append a).as_vec = x.as_vec ++ [a] := rfl

/-- Materializing a `concat` concatenates the materializations, in all
cases of the empty-collapsing construction. -/
theorem Chunk.concat_as_vec {A : Type} (x y : Chunk A) :
    (x.concat y).as_vec = x.as_vec ++ y.as_vec := by
  by_cases h1 : x.is_null = true
  · have hx : x = Chunk.Empty := (Chunk.is_null_iff x).mp h1
    subst hx
    simp [Chunk.concat, Chunk.is_null]
  · by_cases h2 : y.is_null = true
    · have hy : y = Chunk.Empty := (Chunk.is_null_iff y).mp h2
      subst hy
      unfold Chunk.concat
      rw [if_neg h1]
      simp [Chunk.is_null]
    · simp [Chunk.concat, h1, h2]

/-- Folding `append` over a seed chunk appends the folded elements after
the seed's materialization. -/
theorem Chunk.foldl_append_as_vec {A : Type} (s : List A) :
    ∀ c : Chunk A, (s.foldl Chunk.append c).as_vec = c.as_vec ++ s := by
  induction s with
  | nil => intro c; simp
  | cons a as ih =>
      intro c
      simp only [List.foldl_cons]
      rw [ih (c.append a)]
      simp

/-- Chunks built by the public operators satisfy the no-`Empty`-in-`Concat`
invariant. -/
theorem Chunk.built_noEmptyConcat {A : Type} {X : Chunk A} (h : Chunk.Built X) :
    X.noEmptyConcat = true := by
  induction h with
  | default_ => rfl
  | new a => rfl
  | append a hc ih => simpa [Chunk.append, Chunk.noEmptyConcat] using ih
  | concat hc hd ihc ihd =>
      rename_i c d
      by_cases h1 : c.is_null = true
      · simp [Chunk.concat, h1, ihd]
      · by_cases h2 : d.is_null = true
        · simp [Chunk.concat, h1, h2, ihc]
        · simp [Chunk.concat, h1, h2, Chunk.noEmptyConcat, ihc, ihd]
  | transform f hc ih =>
      simpa [Chunk.transform, Chunk.transform_flatten, Chunk.noEmptyConcat] using ih
  | transform_flatten f hc ih =>
      simpa [Chunk.transform_flatten, Chunk.noEmptyConcat] using ih

/-- Without deferred transforms, only `Empty` materializes to the empty
sequence among built chunks. -/
theorem Chunk.builtNT_as_vec_nil_iff {A : Type} {X : Chunk A} (h : Chunk.BuiltNT X) :
    X.as_vec = [] ↔ X = Chunk.Empty := by
  induction h with
  | default_ => simp [Chunk.default]
  | new a => simp [Chunk.new, Chunk.default, Chunk.append]
  | append a hc ih => simp [Chunk.append]
  | concat hc hd ihc ihd =>
      rename_i c d
      by_cases h1 : c.is_null = true
      · simpa [Chunk.concat, h1] using ihd
      · by_cases h2 : d.is_null = true
        · simpa [Chunk.concat, h1, h2] using ihc
        · have hcne : c ≠ Chunk.Empty := by
            intro hc'
            rw [hc'] at h1
            exact h1 rfl
          have hvc : c.as_vec ≠ [] := by
            intro hv
            exact hcne (ihc.mp hv)
          simp [Chunk.concat, h1, h2, hvc]

/-- Flat-mapping a singleton-producing function is a map. -/
theorem flatMapSingleton {α β : Type} (f : α → β) (l : List α) :
    l.flatMap (fun a => [f a]) = l.map f := by
  induction l with
  | nil => rfl
  | cons x xs ih => simp [List.flatMap_cons, ih]

/-! Claim theorems. -/

/-- C1: for every finite sequence S, folding `append` over the empty chunk
with S's elements in order and then materializing with `as_vec` yields
exactly S, in the same order. -/
theorem Chunk.fold_append_roundtrip {A : Type} (S : List A) :
    (S.foldl Chunk.append Chunk.Empty).as_vec = S := by
  rw [Chunk.foldl_append_as_vec S Chunk.Empty]
  simp

/-- C2: in `chunk.rs`, materializing `concat(X, Y)` visits the left
operand before the right one, and the concrete scenario produces
`[1, 2, 3, 4]`; but the `as_vec_mut` of `lib.rs` visits the RIGHT operand
first, so the identical scenario there produces `[3, 4, 1, 2]`,
contradicting `lib.rs`'s own doctests. -/
theorem Chunk.concat_order_divergence :
    (((Chunk.default.append 1).append 2).concat
        ((Chunk.default.append 3).append 4)).as_vec = [1, 2, 3, 4] ∧
    (((LChunk.new.append 1).append 2).concat
        ((LChunk.new.append 3).append 4)).as_vec = [3, 4, 1, 2] ∧
    ([3, 4, 1, 2] : List Nat) ≠ [1, 2, 3, 4] ∧
    (∀ (A : Type) (X Y : Chunk A), (X.concat Y).as_vec = X.as_vec ++ Y.as_vec) := by
  refine ⟨rfl, rfl, by decide, ?_⟩
  intro A X Y
  exact Chunk.concat_as_vec X Y

/-- C3: materializing a `transform_flatten` equals the flat-map of the
function's materializations over the base chunk's materialization. -/
theorem Chunk.transform_flatten_flatMap {A : Type} (X : Chunk A) (f : A → Chunk A) :
    (X.transform_flatten f).as_vec = X.as_vec.flatMap (fun a => (f a).as_vec) := by
  simp [Chunk.transform_flatten]

/-- C4: `transform` is the singleton special case of `transform_flatten`,
and materializing a `transform` maps the function over the base chunk's
materialization. -/
theorem Chunk.transform_is_singleton_flatten {A : Type} (X : Chunk A) (f : A → A) :
    X.transform f = X.transform_flatten (fun a => Chunk.new (f a)) ∧
    (X.transform f).as_vec = X.as_vec.map f := by
  constructor
  · rfl
  · show (Chunk.TransformFlatten X (fun a => Chunk.new (f a))).as_vec = X.as_vec.map f
    rw [Chunk.as_vec_TransformFlatten]
    have : (fun e => (Chunk.new (f e)).as_vec) = fun e => [f e] := by
      funext e
      simp [Chunk.new, Chunk.default, Chunk.append]
    rw [this, flatMapSingleton]

/-- C5: concatenation with an empty operand returns the other operand
unchanged, and every chunk built through the public construction
operators has no `Concat` node with an `Empty` operand. -/
theorem Chunk.concat_identity_and_no_empty_concat {A : Type} (X Y : Chunk A)
    (hX : Chunk.Built X) :
    Chunk.Empty.concat Y = Y ∧ X.concat Chunk.Empty = X ∧ X.noEmptyConcat = true := by
  refine ⟨rfl, ?_, Chunk.built_noEmptyConcat hX⟩
  by_cases h1 : X.is_null = true
  · have hx : X = Chunk.Empty := (Chunk.is_null_iff X).mp h1
    subst hx
    rfl
  · unfold Chunk.concat
    rw [if_neg h1]
    simp [Chunk.is_null]

/-- C5 witness: the theorem applied to concretely built chunks. -/
theorem Chunk.concat_identity_and_no_empty_concat_witness :
    Chunk.Empty.concat (Chunk.new 2) = Chunk.new 2 ∧
    ((Chunk.new (1 : Nat)).concat (Chunk.new 2)).concat Chunk.Empty
      = (Chunk.new 1).concat (Chunk.new 2) ∧
    ((Chunk.new (1 : Nat)).concat (Chunk.new 2)).noEmptyConcat = true :=
  Chunk.concat_identity_and_no_empty_concat ((Chunk.new 1).concat (Chunk.new 2))
    (Chunk.new 2)
    (Chunk.Built.concat (Chunk.Built.new 1) (Chunk.Built.new 2))

/-- C6: the two associations of `concat` materialize to the same
sequence. -/
theorem Chunk.concat_assoc_as_vec {A : Type} (X Y Z : Chunk A) :
    ((X.concat Y).concat Z).as_vec = (X.concat (Y.concat Z)).as_vec := by
  simp [Chunk.concat_as_vec, List.append_assoc]

/-- C7: appending to a clone of X materializes to X's materialization
followed by the new element, the clone materializes identically to X, and
cloning is the identity at the value level — the construction operators
are pure functions of their operands, so X itself is untouched. -/
theorem Chunk.append_clone_persistent {A : Type} (X : Chunk A) (v : A) :
    (X.clone.append v).as_vec = X.as_vec ++ [v] ∧
    X.clone.as_vec = X.as_vec ∧
    X.clone = X := by
  exact ⟨rfl, rfl, rfl⟩

/-- C8 counterexample: `Chunk::new` of `chunk.rs` takes an element and
returns a singleton chunk, not the empty chunk: it is non-null and
materializes to a one-element sequence. -/
theorem Chunk.new_is_not_empty_counterexample :
    (Chunk.new (100 : Nat)).is_null = false ∧
    (Chunk.new (100 : Nat)).as_vec = [100] :=
  ⟨rfl, rfl⟩

/-- C8 amended: `default` (both files) and `lib.rs`'s `new()` return the
`Empty` chunk, which is null and materializes to the empty sequence;
`chunk.rs`'s `new(a)` instead returns `default().append(a)`, a non-null
singleton. -/
theorem Chunk.empty_constructors_spec {A : Type} (a : A) :
    (Chunk.default : Chunk A) = Chunk.Empty ∧
    (Chunk.default : Chunk A).is_null = true ∧
    (Chunk.default : Chunk A).as_vec = [] ∧
    (LChunk.new : LChunk A) = LChunk.Empty ∧
    (LChunk.default : LChunk A) = LChunk.Empty ∧
    (LChunk.new : LChunk A).is_null = true ∧
    (LChunk.new : LChunk A).as_vec = [] ∧
    (Chunk.new a).is_null = false ∧
    (Chunk.new a).as_vec = [a] :=
  ⟨rfl, rfl, rfl, rfl, rfl, rfl, rfl, rfl, rfl⟩

/-- C9 counterexample: a chunk built through the public operators that is
not the `Empty` variant (and is not null) yet materializes to the empty
sequence: a `transform_flatten` whose function returns `Empty`. -/
theorem Chunk.transform_flatten_empty_counterexample :
    Chunk.Built ((Chunk.new (1 : Nat)).transform_flatten (fun _ => Chunk.Empty)) ∧
    ((Chunk.new (1 : Nat)).transform_flatten (fun _ => Chunk.Empty)).as_vec = [] ∧
    ((Chunk.new (1 : Nat)).transform_flatten (fun _ => Chunk.Empty)).is_null = false ∧
    (Chunk.new (1 : Nat)).transform_flatten (fun _ => Chunk.Empty) ≠ Chunk.Empty := by
  refine ⟨Chunk.Built.transform_flatten _ (Chunk.Built.new 1), rfl, rfl, ?_⟩
  simp [Chunk.transform_flatten]

/-- C9 amended: among chunks built through `default`/`new`, `append` and
`concat` only (no deferred transforms), `Empty` is the unique
representation of the zero-element sequence: such a chunk materializes to
the empty sequence iff it is the `Empty` variant, iff `is_null` holds. -/
theorem Chunk.builtNT_empty_unique {A : Type} (X : Chunk A) (h : Chunk.BuiltNT X) :
    (X.as_vec = [] ↔ X = Chunk.Empty) ∧ (X.is_null = true ↔ X = Chunk.Empty) :=
  ⟨Chunk.builtNT_as_vec_nil_iff h, Chunk.is_null_iff X⟩

/-- C9 witness: the amended theorem applied to a concrete singleton. -/
theorem Chunk.builtNT_empty_unique_witness :
    ((Chunk.new (1 : Nat)).as_vec = [] ↔ Chunk.new (1 : Nat) = Chunk.Empty) ∧
    ((Chunk.new (1 : Nat)).is_null = true ↔ Chunk.new (1 : Nat) = Chunk.Empty) :=
  Chunk.builtNT_empty_unique (Chunk.new 1) (Chunk.BuiltNT.new 1)

/-- C10: the structural equality derived for the `lib.rs` chunk type is
strictly finer than equality of materialized sequences: two chunks with
identical materializations that are structurally unequal (both for
propositional equality and for the derived boolean equality). -/
theorem LChunk.structural_eq_finer :
    ∃ X Y : LChunk Nat, X.as_vec = Y.as_vec ∧ X ≠ Y ∧ (X == Y) = false := by
  refine ⟨LChunk.Append 2 (LChunk.Append 1 LChunk.Empty),
      LChunk.Concat (LChunk.Append 2 LChunk.Empty) (LChunk.Append 1 LChunk.Empty),
      rfl, ?_, rfl⟩
  decide
